import Mathlib

/-!
Verification of the arke-description-service batch engine.

Part 1 embeds the progressive-tax truncation algorithm from `src/truncation.ts`
(re-exported through `src/types.ts`): token estimation, content truncation and
`applyProgressiveTaxTruncation`.  JS strings are modeled as character lists and
JS numbers as exact integers/rationals (`Int`, `ℚ`); all arithmetic in the
source stays within the exactly-representable range, so exact arithmetic is a
faithful model.

Part 2 embeds the `DescriptionBatchDO` durable object: its SQL-backed state,
the phase handlers (`processPhase`, `publishPhase`, `callbackPhase` payload
construction), the CAS publish loop (`publishPI`), the `alarm` dispatcher and
`handleProcess`.  External effects (LLM generation, IPFS, the orchestrator
callback) are modeled as explicit outcome parameters.
-/

namespace Arke
/-- A raw input file (`TextFile` in `types.ts`): name plus text content. -/
structure TextFile where
  name : String
  content : List Char
deriving DecidableEq

/-- A file with token accounting (`TokenizedFile` in `types.ts`). -/
structure TokenizedFile where
  name : String
  content : List Char
  tokens : Int
  originalTokens : Int
deriving DecidableEq

/-- Result record of the truncation algorithm (`TruncationResult`). -/
structure TruncationResult where
  files : List TokenizedFile
  totalTokensBefore : Int
  totalTokensAfter : Int
  targetTokens : Int
  deficit : Int
  protectionMode : Bool
  filesProtected : Nat
  filesTruncated : Nat
deriving DecidableEq

/-- `estimateTokens(text) = Math.ceil(text.length / 3)`. -/
def estimateTokens (text : List Char) : Int := (((text.length + 2) / 3 : Nat) : Int)

/-- The visible truncation marker appended by `truncateContent`. -/
def truncationSuffix : List Char := "\n... [content truncated]".toList

/-- `truncateContent(content, targetChars)`: return the content unchanged when
it already fits, otherwise cut it and append the visible suffix. -/
def truncateContent (content : List Char) (targetChars : Nat) : List Char :=
  if content.length ≤ targetChars then content
  else content.take targetChars ++ truncationSuffix

/-- The `files.map(...)` step converting raw files to tokenized files. -/
def tokenize (files : List TextFile) : List TokenizedFile :=
  files.map fun f =>
    { name := f.name, content := f.content,
      tokens := estimateTokens f.content, originalTokens := estimateTokens f.content }

/-- `reduce((sum, f) => sum + f.tokens, 0)`. -/
def sumTokens (fs : List TokenizedFile) : Int := (fs.map TokenizedFile.tokens).sum

/-- `deficit = totalTokens - targetTokens`. -/
def deficitOf (files : List TextFile) (target : Int) : Int :=
  sumTokens (tokenize files) - target

/-- `averageTax = deficit / tokenizedFiles.length` (exact rational). -/
def avgTax (files : List TextFile) (target : Int) : ℚ :=
  (deficitOf files target : ℚ) / ((tokenize files).length : ℚ)

/-- The `f.tokens >= averageTax` test used to build `aboveAverage`. -/
def isAboveAvg (avg : ℚ) (f : TokenizedFile) : Bool := decide (avg ≤ (f.tokens : ℚ))

/-- The `f.tokens < averageTax` test used to build `belowAverage`. -/
def isBelowAvg (avg : ℚ) (f : TokenizedFile) : Bool := decide ((f.tokens : ℚ) < avg)

/-- `belowAverage = tokenizedFiles.filter(f => f.tokens < averageTax)`. -/
def belowAvgFiles (files : List TextFile) (target : Int) : List TokenizedFile :=
  (tokenize files).filter (isBelowAvg (avgTax files target))

/-- `aboveAverage = tokenizedFiles.filter(f => f.tokens >= averageTax)`. -/
def aboveAvgFiles (files : List TextFile) (target : Int) : List TokenizedFile :=
  (tokenize files).filter (isAboveAvg (avgTax files target))

/-- The loop body applied to a taxed file: `tax = ceil(tokens/denom * deficit)`,
`finalTokens = max(0, tokens - tax)`, content truncated to `finalTokens * 3`
characters, `tokens` overwritten with `finalTokens`. -/
def taxFile (denom deficit : Int) (f : TokenizedFile) : TokenizedFile :=
  { f with
    content := truncateContent f.content
      ((max 0 (f.tokens - ⌈(f.tokens : ℚ) / (denom : ℚ) * (deficit : ℚ)⌉) * 3).toNat)
    tokens := max 0 (f.tokens - ⌈(f.tokens : ℚ) / (denom : ℚ) * (deficit : ℚ)⌉) }

/-- Net effect of the protection-mode loop: above-average files are taxed with
denominator `totalAbove`, below-average files are untouched. -/
def protectedFiles (files : List TextFile) (target : Int) : List TokenizedFile :=
  (tokenize files).map fun f =>
    if isAboveAvg (avgTax files target) f then
      taxFile (sumTokens (aboveAvgFiles files target)) (deficitOf files target) f
    else f

/-- Net effect of the fallback-mode loop: every file is taxed with denominator
`totalTokens`. -/
def fallbackFiles (files : List TextFile) (target : Int) : List TokenizedFile :=
  (tokenize files).map (taxFile (sumTokens (tokenize files)) (deficitOf files target))

/-- `applyProgressiveTaxTruncation(files, targetTokens)` from `truncation.ts`. -/
def applyProgressiveTaxTruncation (files : List TextFile) (targetTokens : Int) :
    TruncationResult :=
  if deficitOf files targetTokens ≤ 0 then
    { files := tokenize files
      totalTokensBefore := sumTokens (tokenize files)
      totalTokensAfter := sumTokens (tokenize files)
      targetTokens := targetTokens
      deficit := 0
      protectionMode := false
      filesProtected := 0
      filesTruncated := 0 }
  else if sumTokens (belowAvgFiles files targetTokens) ≤ targetTokens ∧
      0 < (aboveAvgFiles files targetTokens).length then
    { files := protectedFiles files targetTokens
      totalTokensBefore := sumTokens (tokenize files)
      totalTokensAfter := sumTokens (protectedFiles files targetTokens)
      targetTokens := targetTokens
      deficit := deficitOf files targetTokens
      protectionMode := true
      filesProtected := (belowAvgFiles files targetTokens).length
      filesTruncated := (aboveAvgFiles files targetTokens).length }
  else
    { files := fallbackFiles files targetTokens
      totalTokensBefore := sumTokens (tokenize files)
      totalTokensAfter := sumTokens (fallbackFiles files targetTokens)
      targetTokens := targetTokens
      deficit := deficitOf files targetTokens
      protectionMode := false
      filesProtected := 0
      filesTruncated := (tokenize files).length }

/-- Content consisting of `n` copies of one character; used to build concrete
inputs of a prescribed size (`estimateTokens` only looks at the length). -/
def mkContent (n : Nat) : List Char := List.replicate n 'a'

/-- The spec scenario: four files of 1000, 1000, 10000 and 300000 tokens
(3000, 3000, 30000 and 900000 characters). -/
def scenFiles : List TextFile :=
  [⟨"a", mkContent 3000⟩, ⟨"b", mkContent 3000⟩,
   ⟨"c", mkContent 30000⟩, ⟨"d", mkContent 900000⟩]

/-- The second spec scenario: two files of 149 and 251 tokens
(447 and 753 characters), target 100. -/
def scen2Files : List TextFile := [⟨"a", mkContent 447⟩, ⟨"b", mkContent 753⟩]

/-- A single 6-character (2-token) file truncated against target 1. -/
def cexFiles : List TextFile := [⟨"a", mkContent 6⟩]

/-!
Part 2: the `DescriptionBatchDO` durable object.  The SQLite tables become
lists of rows, the phase handlers become functions of the explicit state,
and each external call is an explicit outcome parameter (the per-PI LLM
result, the per-PI publish result, per-attempt IPFS responses).
-/

/-- The batch phase enum (`Phase` in `types.ts`). -/
inductive Phase
  | PROCESSING
  | PUBLISHING
  | CALLBACK
  | DONE
  | ERROR
deriving DecidableEq

/-- Per-item status stored in the `pi_state.status` column. -/
inductive PiStatus
  | pending
  | processing
  | done
  | error
deriving DecidableEq

/-- One row of the `pi_state` table. -/
structure PiState where
  pi : String
  status : PiStatus
  retry_count : Nat
  description : Option String
  description_cid : Option String
  new_tip : Option String
  new_version : Option Int
  error : Option String
deriving DecidableEq

/-- The single row of the `batch_state` table. -/
structure BatchState where
  batch_id : String
  chunk_id : String
  custom_prompt : Option String
  phase : Phase
  started_at : Int
  completed_at : Option Int
  callback_retry_count : Nat
  global_error : Option String
deriving DecidableEq

/-- One row of the `pi_context_files` table. -/
structure CtxFileRow where
  pi : String
  idx : Nat
  filename : String
  content : String
deriving DecidableEq

/-- One row of the `pi_context_meta` table. -/
structure CtxMetaRow where
  pi : String
  directory_name : String
deriving DecidableEq

/-- The durable object's persisted state: the five SQL tables plus whether an
alarm is scheduled. -/
structure DOState where
  batch : Option BatchState
  piList : List String
  pis : List PiState
  contextFiles : List CtxFileRow
  contextMeta : List CtxMetaRow
  alarmSet : Bool
deriving DecidableEq

/-- Body of `POST /process` (`ProcessRequest`); a missing `pis` field is
modeled as the empty list, exactly as the code treats it. -/
structure ProcessRequest where
  batch_id : String
  chunk_id : String
  custom_prompt : Option String
  pis : List String
deriving DecidableEq

/-- Responses `handleProcess` can produce. -/
inductive ProcessResponse
  | alreadyProcessing (chunk_id : String) (phase : Phase)
  | badRequest
  | accepted (chunk_id : String) (total_pis : Nat)
deriving DecidableEq

/-- The row inserted into `pi_state` for each submitted PI. -/
def freshPiState (pi : String) : PiState :=
  { pi := pi, status := .pending, retry_count := 0, description := none,
    description_cid := none, new_tip := none, new_version := none, error := none }

/-- `clearAllTables`: delete every row of every table. -/
def clearAllTables (st : DOState) : DOState :=
  { st with
    batch := none
    piList := []
    pis := []
    contextFiles := []
    contextMeta := [] }

/-- The tail of `handleProcess` after the already-processing check: validate
`pis`, insert the batch row and the per-PI rows, schedule an alarm. -/
def startJob (st : DOState) (req : ProcessRequest) (now : Int) :
    DOState × ProcessResponse :=
  if req.pis.isEmpty then (st, .badRequest)
  else
    ({ st with
        batch := some
          { batch_id := req.batch_id, chunk_id := req.chunk_id,
            custom_prompt := req.custom_prompt, phase := .PROCESSING,
            started_at := now, completed_at := none, callback_retry_count := 0,
            global_error := none }
        piList := st.piList ++ req.pis
        pis := st.pis ++ req.pis.map freshPiState
        alarmSet := true },
      .accepted req.chunk_id req.pis.length)

/-- `handleProcess`: reject while a non-terminal job exists, clear and restart
on a terminal one, start fresh otherwise. -/
def handleProcess (st : DOState) (req : ProcessRequest) (now : Int) :
    DOState × ProcessResponse :=
  match st.batch with
  | some b =>
    if b.phase ≠ .DONE ∧ b.phase ≠ .ERROR then
      (st, .alreadyProcessing req.chunk_id b.phase)
    else startJob (clearAllTables st) req now
  | none => startJob st req now

/-- Result of one `processPI` call (context fetch plus LLM generation): the
generated description, or the error message of the rejection. -/
inductive ProcessOutcome
  | ok (description : String)
  | err (message : String)
deriving DecidableEq

/-- The `status IN ('pending', 'processing')` selection of `processPhase`. -/
def pendingPred (p : PiState) : Bool :=
  p.status == .pending || p.status == .processing

/-- Net per-row update of the `processPhase` result loop. -/
def piAfterProcess (maxRetries : Nat) (outcome : String → ProcessOutcome)
    (p : PiState) : PiState :=
  match outcome p.pi with
  | .ok desc => { p with status := .done, description := some desc }
  | .err msg =>
    if maxRetries ≤ p.retry_count + 1 then
      { p with
        status := .error
        retry_count := p.retry_count + 1
        error := some msg }
    else
      { p with status := .pending, retry_count := p.retry_count + 1 }

/-- Whether `processPhase` deletes the context rows of a processed PI
(success, or failure at the retry maximum). -/
def clearCtxAfterProcess (maxRetries : Nat) (outcome : String → ProcessOutcome)
    (p : PiState) : Bool :=
  match outcome p.pi with
  | .ok _ => true
  | .err _ => maxRetries ≤ p.retry_count + 1

/-- Whether the tick deletes the context rows keyed by `pi`. -/
def ctxCleared (st : DOState) (maxRetries : Nat)
    (outcome : String → ProcessOutcome) (pi : String) : Bool :=
  st.pis.any fun p =>
    p.pi == pi && pendingPred p && clearCtxAfterProcess maxRetries outcome p

/-- `UPDATE batch_state SET phase = ...`. -/
def setPhase (st : DOState) (ph : Phase) : DOState :=
  match st.batch with
  | some b => { st with batch := some { b with phase := ph } }
  | none => st

/-- `processPhase`: with no pending/processing rows move to PUBLISHING,
otherwise run every pending PI (`outcome`), apply the result loop, and drop
context rows of finished PIs.  `ctxWrites`/`metaWrites` are the context rows
the parallel `processPI` calls cached during the tick (the deletions run
after the fan-in, so they apply to these rows too). -/
def processPhase (maxRetries : Nat) (st : DOState)
    (outcome : String → ProcessOutcome) (ctxWrites : List CtxFileRow)
    (metaWrites : List CtxMetaRow) : DOState :=
  if (st.pis.filter pendingPred).isEmpty then
    { setPhase st .PUBLISHING with alarmSet := true }
  else
    { st with
      pis := st.pis.map fun p =>
        if pendingPred p then piAfterProcess maxRetries outcome p else p
      contextFiles := (st.contextFiles ++ ctxWrites).filter
        fun r => !(ctxCleared st maxRetries outcome r.pi)
      contextMeta := (st.contextMeta ++ metaWrites).filter
        fun r => !(ctxCleared st maxRetries outcome r.pi)
      alarmSet := true }

/-- Result of one `publishPI` call as seen by `publishPhase`. -/
inductive PublishResult
  | ok (cid : String) (tip : String) (ver : Int)
  | failed (message : String)
deriving DecidableEq

/-- The `status = 'done' AND description IS NOT NULL AND description_cid IS
NULL` selection of `publishPhase`. -/
def toPublishPred (p : PiState) : Bool :=
  p.status == .done && p.description.isSome && p.description_cid == none

/-- Net per-row update of the `publishPhase` result loop. -/
def piAfterPublish (outcome : String → PublishResult) (p : PiState) : PiState :=
  match outcome p.pi with
  | .ok cid tip ver =>
    { p with
      description_cid := some cid
      new_tip := some tip
      new_version := some ver }
  | .failed msg =>
    { p with status := .error, error := some ("Publish failed: " ++ msg) }

/-- `publishPhase`: with nothing left to publish move to CALLBACK, otherwise
publish all eligible rows in parallel and fold in each result. -/
def publishPhase (st : DOState) (outcome : String → PublishResult) : DOState :=
  if (st.pis.filter toPublishPred).isEmpty then
    { setPhase st .CALLBACK with alarmSet := true }
  else
    { st with
      pis := st.pis.map fun p =>
        if toPublishPred p then piAfterPublish outcome p else p
      alarmSet := true }

/-- One entry of the callback payload's `results` array. -/
structure PiResult where
  pi : String
  status : String
  new_tip : Option String
  new_version : Option Int
  error : Option String
deriving DecidableEq

/-- The `summary` block of the callback payload. -/
structure CallbackSummary where
  total : Nat
  succeeded : Nat
  failed : Nat
  processing_time_ms : Int
deriving DecidableEq

/-- The callback payload sent to the orchestrator. -/
structure CallbackPayload where
  batch_id : String
  chunk_id : String
  status : String
  results : List PiResult
  summary : CallbackSummary
  error : Option String
deriving DecidableEq

/-- JS truthiness of the `new_tip` column (`p.new_tip` in a boolean
position): null and the empty string are falsy. -/
def tipTruthy : Option String → Bool
  | none => false
  | some s => !(s == "")

/-- `p.status === 'done' && p.new_tip` — the `succeeded` selection. -/
def succeededPred (p : PiState) : Bool := p.status == .done && tipTruthy p.new_tip

/-- `p.status === 'error'` — the `failed` selection. -/
def failedPred (p : PiState) : Bool := p.status == .error

/-- The payload built at the start of `callbackPhase` from the batch row and
all `pi_state` rows. -/
def buildCallbackPayload (b : BatchState) (pis : List PiState) (now : Int) :
    CallbackPayload :=
  { batch_id := b.batch_id
    chunk_id := b.chunk_id
    status :=
      if (pis.filter failedPred).length = 0 then "success"
      else if (pis.filter succeededPred).length = 0 then "error"
      else "partial"
    results := pis.map fun p =>
      { pi := p.pi
        status := if succeededPred p then "success" else "error"
        new_tip := p.new_tip
        new_version := p.new_version
        error := p.error }
    summary :=
      { total := pis.length
        succeeded := (pis.filter succeededPred).length
        failed := (pis.filter failedPred).length
        processing_time_ms := now - b.started_at }
    error := b.global_error }

/-- Result of one `appendVersion` call: the new tip and version, or the
message of the thrown error. -/
inductive AppendOutcome
  | ok (tip : String) (ver : Int)
  | err (message : String)
deriving DecidableEq

/-- External behavior of the versioned store during one `publishPI` call:
the tip `getEntity` returns before attempt `k`, what `appendVersion` does on
attempt `k` given the tip it was passed, and the `Math.random() * 50` jitter
drawn before retry `k`. -/
structure PublishEnv where
  entityTip : Nat → String
  append : Nat → String → AppendOutcome
  jitter : Nat → ℚ

/-- Trace entry for one loop iteration of `publishPI`: the tip `getEntity`
returned, the tip actually passed to `appendVersion`, the append outcome, and
the backoff delay slept before the next attempt (none when the loop exits). -/
structure AttemptLog where
  fetchedTip : String
  usedTip : String
  outcome : AppendOutcome
  delayMs : Option ℚ
deriving DecidableEq

/-- `error.message?.includes('409') || ... 'CAS' || ... 'expected tip'`. -/
def isCASFailure (msg : String) : Bool :=
  1 < (msg.splitOn "409").length || 1 < (msg.splitOn "CAS").length ||
    1 < (msg.splitOn "expected tip").length

/-- `const maxRetries = 5` in `publishPI`. -/
def publishPIMaxRetries : Nat := 5

/-- `const baseDelay = 100` in `publishPI`. -/
def publishPIBaseDelay : ℚ := 100

/-- One iteration of the `publishPI` loop at index `attempt`: re-fetch the
current tip via `getEntity`, pass exactly that freshly-read tip to
`appendVersion`, and either return (success), retry after
`baseDelay * 2 ^ attempt + jitter` (CAS conflict before the last attempt,
`rest` being the remaining iterations), or propagate the error. -/
def publishPIStep (env : PublishEnv) (cid : String) (attempt : Nat)
    (rest : PublishResult × List AttemptLog) :
    PublishResult × List AttemptLog :=
  match env.append attempt (env.entityTip attempt) with
  | .ok tip ver =>
    (.ok cid tip ver,
      [⟨env.entityTip attempt, env.entityTip attempt, .ok tip ver, none⟩])
  | .err msg =>
    if isCASFailure msg ∧ attempt < publishPIMaxRetries - 1 then
      (rest.1,
        ⟨env.entityTip attempt, env.entityTip attempt, .err msg,
          some (publishPIBaseDelay * 2 ^ attempt + env.jitter attempt)⟩ ::
          rest.2)
    else
      (.failed msg,
        [⟨env.entityTip attempt, env.entityTip attempt, .err msg, none⟩])

/-- The CAS retry loop of `publishPI`, unrolled on remaining fuel
(`fuel = maxRetries - attempt`); returns the outcome plus the trace of
iterations.  The fuel-exhausted case mirrors the `throw` after the loop. -/
def publishPIAux (env : PublishEnv) (cid : String) :
    Nat → Nat → PublishResult × List AttemptLog
  | 0, _ => (.failed "Failed to publish after 5 attempts", [])
  | fuel + 1, attempt =>
    publishPIStep env cid attempt (publishPIAux env cid fuel (attempt + 1))

/-- `publishPI` after the initial content upload produced `cid`: run the CAS
loop from attempt 0 with all 5 attempts available. -/
def publishPI (env : PublishEnv) (cid : String) :
    PublishResult × List AttemptLog :=
  publishPIAux env cid publishPIMaxRetries 0

/-- Store behavior for the C6 witness: attempt 0 hits a CAS conflict after
fetching tip `t0`, attempt 1 fetches the new tip `t1` and succeeds. -/
def pubEnvEx : PublishEnv :=
  { entityTip := fun k => if k == 0 then "t0" else "t1"
    append := fun k _ => if k == 0 then .err "CAS mismatch" else .ok "t2" 7
    jitter := fun _ => 0 }

/-- Two done items: `p1` still unpublished, `p2` already published. -/
def pubSt : DOState :=
  { batch := some ⟨"b1", "c1", none, .PUBLISHING, 0, none, 0, none⟩
    piList := ["p1", "p2"]
    pis := [⟨"p1", .done, 0, some "d1", none, none, none, none⟩,
            ⟨"p2", .done, 0, some "d2", some "c2", some "t9", some 4, none⟩]
    contextFiles := []
    contextMeta := []
    alarmSet := true }

/-- Publish outcomes for the C6 witness: `p1` exhausts its attempts, every
other item succeeds. -/
def pubOutEx : String → PublishResult := fun pi =>
  if pi == "p1" then .failed "409 conflict" else .ok "c" "t" 1

/-- The body of the `alarm()` handler: a missing batch row returns silently;
otherwise the phase dispatch `run` (whose external calls may reject) either
yields the next persisted state, or its exception is caught, recorded as
`global_error`, the phase is forced to CALLBACK and the next tick is
scheduled. -/
def alarmHandler (st : DOState) (run : DOState → Except String DOState) :
    DOState :=
  match st.batch with
  | none => st
  | some b =>
    match run st with
    | .ok st2 => st2
    | .error msg =>
      { st with
        batch := some { b with phase := .CALLBACK, global_error := some msg }
        alarmSet := true }

/-- A batch row in the middle of processing. -/
def activeBatch : BatchState :=
  { batch_id := "b1", chunk_id := "c1", custom_prompt := none,
    phase := .PROCESSING, started_at := 0, completed_at := none,
    callback_retry_count := 0, global_error := none }

/-- A persisted state holding `activeBatch` and one item mid-retry. -/
def activeSt : DOState :=
  { batch := some activeBatch
    piList := ["p1"]
    pis := [{ pi := "p1"
              status := .processing
              retry_count := 1
              description := none
              description_cid := none
              new_tip := none
              new_version := none
              error := none }]
    contextFiles := []
    contextMeta := []
    alarmSet := true }

/-- A resubmission of the same chunk. -/
def resubmitReq : ProcessRequest :=
  { batch_id := "b1", chunk_id := "c1", custom_prompt := none, pis := ["p1"] }

/-- A batch row in the terminal DONE phase. -/
def termBatch : BatchState :=
  { batch_id := "b1", chunk_id := "c1", custom_prompt := none,
    phase := .DONE, started_at := 0, completed_at := some 9,
    callback_retry_count := 0, global_error := none }

/-- A persisted terminal state with one completed item and cached context. -/
def termSt : DOState :=
  { batch := some termBatch
    piList := ["p1"]
    pis := [{ pi := "p1"
              status := .done
              retry_count := 2
              description := some "d"
              description_cid := some "cid"
              new_tip := some "t"
              new_version := some 3
              error := none }]
    contextFiles := [⟨"p1", 0, "f", "x"⟩]
    contextMeta := [⟨"p1", "dir"⟩]
    alarmSet := false }

/-- A submission carrying no items at all. -/
def emptyReq : ProcessRequest :=
  { batch_id := "b1", chunk_id := "c1", custom_prompt := none, pis := [] }

/-- The state `handleProcess` builds for an accepted submission: a fresh
PROCESSING job over empty tables with one pending row per submitted item. -/
def restartedState (req : ProcessRequest) (now : Int) : DOState :=
  { batch := some
      { batch_id := req.batch_id
        chunk_id := req.chunk_id
        custom_prompt := req.custom_prompt
        phase := .PROCESSING
        started_at := now
        completed_at := none
        callback_retry_count := 0
        global_error := none }
    piList := req.pis
    pis := req.pis.map freshPiState
    contextFiles := []
    contextMeta := []
    alarmSet := true }

/-- A fresh submission with two items. -/
def restartReq : ProcessRequest :=
  { batch_id := "b2", chunk_id := "c2", custom_prompt := some "cp",
    pis := ["q1", "q2"] }

/-- Generation outcome used by the C7 witness: `p1` rejects, others accept. -/
def procOutEx : String → ProcessOutcome := fun pi =>
  if pi == "p1" then .err "LLM failed" else .ok "desc"

/-- A state whose single item has already burned 2 of 3 retries. -/
def retrySt : DOState :=
  { batch := some activeBatch
    piList := ["p1"]
    pis := [{ pi := "p1"
              status := .pending
              retry_count := 2
              description := none
              description_cid := none
              new_tip := none
              new_version := none
              error := none }]
    contextFiles := [⟨"p1", 0, "f", "x"⟩]
    contextMeta := [⟨"p1", "dir"⟩]
    alarmSet := true }

lemma mkContent_length (n : Nat) : (mkContent n).length = n := by
  simp [mkContent]

lemma estimateTokens_mkContent (n : Nat) :
    estimateTokens (mkContent n) = (((n + 2) / 3 : Nat) : Int) := by
  simp [estimateTokens, mkContent_length]

lemma estimateTokens_nonneg (text : List Char) : 0 ≤ estimateTokens text :=
  Int.natCast_nonneg _

/-- Branch characterization: with a non-positive deficit the input is already
under budget and is returned unchanged. -/
lemma apply_under_eq (files : List TextFile) (target : Int)
    (h : deficitOf files target ≤ 0) :
    applyProgressiveTaxTruncation files target =
      { files := tokenize files
        totalTokensBefore := sumTokens (tokenize files)
        totalTokensAfter := sumTokens (tokenize files)
        targetTokens := target
        deficit := 0
        protectionMode := false
        filesProtected := 0
        filesTruncated := 0 } := by
  unfold applyProgressiveTaxTruncation
  rw [if_pos h]

/-- Branch characterization: with a positive deficit, a feasible protection set
and at least one above-average file, the algorithm takes the protection branch. -/
lemma apply_protection_eq (files : List TextFile) (target : Int)
    (h1 : 0 < deficitOf files target)
    (h2 : sumTokens (belowAvgFiles files target) ≤ target)
    (h3 : 0 < (aboveAvgFiles files target).length) :
    applyProgressiveTaxTruncation files target =
      { files := protectedFiles files target
        totalTokensBefore := sumTokens (tokenize files)
        totalTokensAfter := sumTokens (protectedFiles files target)
        targetTokens := target
        deficit := deficitOf files target
        protectionMode := true
        filesProtected := (belowAvgFiles files target).length
        filesTruncated := (aboveAvgFiles files target).length } := by
  unfold applyProgressiveTaxTruncation
  rw [if_neg (by omega), if_pos ⟨h2, h3⟩]

/-- Branch characterization: with a positive deficit, if protection is not
feasible or there is no above-average file, the algorithm takes the fallback
branch. -/
lemma apply_fallback_eq (files : List TextFile) (target : Int)
    (h1 : 0 < deficitOf files target)
    (h2 : ¬(sumTokens (belowAvgFiles files target) ≤ target ∧
        0 < (aboveAvgFiles files target).length)) :
    applyProgressiveTaxTruncation files target =
      { files := fallbackFiles files target
        totalTokensBefore := sumTokens (tokenize files)
        totalTokensAfter := sumTokens (fallbackFiles files target)
        targetTokens := target
        deficit := deficitOf files target
        protectionMode := false
        filesProtected := 0
        filesTruncated := (tokenize files).length } := by
  unfold applyProgressiveTaxTruncation
  rw [if_neg (by omega), if_neg h2]

lemma isAboveAvg_eq_true_iff (avg : ℚ) (f : TokenizedFile) :
    isAboveAvg avg f = true ↔ avg ≤ (f.tokens : ℚ) := by
  simp [isAboveAvg]

lemma isAboveAvg_eq_false_iff (avg : ℚ) (f : TokenizedFile) :
    isAboveAvg avg f = false ↔ (f.tokens : ℚ) < avg := by
  simp [isAboveAvg]

lemma isBelowAvg_eq_not_isAboveAvg (avg : ℚ) (f : TokenizedFile) :
    isBelowAvg avg f = !(isAboveAvg avg f) := by
  by_cases h : avg ≤ (f.tokens : ℚ)
  · simp [isBelowAvg, isAboveAvg, h, not_lt.mpr h]
  · simp [isBelowAvg, isAboveAvg, h, lt_of_not_ge h]

lemma tokenize_length (files : List TextFile) :
    (tokenize files).length = files.length := by
  simp [tokenize]

lemma protectedFiles_length (files : List TextFile) (target : Int) :
    (protectedFiles files target).length = (tokenize files).length := by
  simp [protectedFiles]

lemma fallbackFiles_length (files : List TextFile) (target : Int) :
    (fallbackFiles files target).length = (tokenize files).length := by
  simp [fallbackFiles]

lemma protectedFiles_getElem (files : List TextFile) (target : Int) (i : Nat)
    (h : i < (tokenize files).length)
    (h2 : i < (protectedFiles files target).length) :
    (protectedFiles files target)[i] =
      if isAboveAvg (avgTax files target) (tokenize files)[i] then
        taxFile (sumTokens (aboveAvgFiles files target)) (deficitOf files target)
          (tokenize files)[i]
      else (tokenize files)[i] := by
  simp [protectedFiles]

lemma fallbackFiles_getElem (files : List TextFile) (target : Int) (i : Nat)
    (h : i < (tokenize files).length)
    (h2 : i < (fallbackFiles files target).length) :
    (fallbackFiles files target)[i] =
      taxFile (sumTokens (tokenize files)) (deficitOf files target)
        (tokenize files)[i] := by
  simp [fallbackFiles]

lemma taxFile_tokens (denom deficit : Int) (f : TokenizedFile) :
    (taxFile denom deficit f).tokens =
      max 0 (f.tokens - ⌈(f.tokens : ℚ) / (denom : ℚ) * (deficit : ℚ)⌉) := rfl

/-- C1: in protection mode (total above target, below-average files fit in the
target, at least one file at or above the average tax) every below-average
file is returned entirely unchanged, every above-average file of size `s` is
reduced to `max 0 (s - ⌈s / totalAbove * deficit⌉)` and the result reports
`protectionMode = true`. -/
theorem progressiveTax_protection_mode (files : List TextFile) (target : Int)
    (hover : target < sumTokens (tokenize files))
    (hfeas : sumTokens (belowAvgFiles files target) ≤ target)
    (habove : 0 < (aboveAvgFiles files target).length) :
    (applyProgressiveTaxTruncation files target).protectionMode = true ∧
    (applyProgressiveTaxTruncation files target).files.length =
      (tokenize files).length ∧
    ∀ i (h1 : i < (tokenize files).length)
      (h2 : i < (applyProgressiveTaxTruncation files target).files.length),
      ((((tokenize files)[i]).tokens : ℚ) < avgTax files target →
        (applyProgressiveTaxTruncation files target).files[i] =
          (tokenize files)[i]) ∧
      (avgTax files target ≤ (((tokenize files)[i]).tokens : ℚ) →
        ((applyProgressiveTaxTruncation files target).files[i]).tokens =
          max 0 (((tokenize files)[i]).tokens -
            ⌈(((tokenize files)[i]).tokens : ℚ) /
              (sumTokens (aboveAvgFiles files target) : ℚ) *
              (deficitOf files target : ℚ)⌉)) := by
  have hdef : 0 < deficitOf files target := by
    have : deficitOf files target = sumTokens (tokenize files) - target := rfl
    omega
  rw [apply_protection_eq files target hdef hfeas habove]
  refine ⟨rfl, protectedFiles_length files target, ?_⟩
  intro i h1 h2
  rw [protectedFiles_getElem files target i h1 h2]
  constructor
  · intro hlt
    rw [if_neg]
    simp [isAboveAvg_eq_false_iff]
    exact hlt
  · intro hge
    rw [if_pos ((isAboveAvg_eq_true_iff _ _).mpr hge), taxFile_tokens]

lemma tokenize_scen : tokenize scenFiles =
    [⟨"a", mkContent 3000, 1000, 1000⟩, ⟨"b", mkContent 3000, 1000, 1000⟩,
     ⟨"c", mkContent 30000, 10000, 10000⟩,
     ⟨"d", mkContent 900000, 300000, 300000⟩] := by
  norm_num [tokenize, scenFiles, estimateTokens_mkContent]

lemma total_scen : sumTokens (tokenize scenFiles) = 312000 := by
  norm_num [sumTokens, tokenize_scen]

lemma deficit_scen : deficitOf scenFiles 100000 = 212000 := by
  norm_num [deficitOf, total_scen]

lemma avgTax_scen : avgTax scenFiles 100000 = 53000 := by
  rw [avgTax, deficit_scen, tokenize_length]
  norm_num [scenFiles]

lemma belowAvg_scen : belowAvgFiles scenFiles 100000 =
    [⟨"a", mkContent 3000, 1000, 1000⟩, ⟨"b", mkContent 3000, 1000, 1000⟩,
     ⟨"c", mkContent 30000, 10000, 10000⟩] := by
  unfold belowAvgFiles
  rw [tokenize_scen, avgTax_scen]
  norm_num [isBelowAvg, List.filter]

lemma aboveAvg_scen : aboveAvgFiles scenFiles 100000 =
    [⟨"d", mkContent 900000, 300000, 300000⟩] := by
  unfold aboveAvgFiles
  rw [tokenize_scen, avgTax_scen]
  norm_num [isAboveAvg, List.filter]

/-- C1 witness: on the concrete scenario batch the protection-mode theorem
applies and yields sizes 1000, 1000, 10000, 88000 with `protectionMode = true`. -/
theorem progressiveTax_protection_mode_witness :
    (applyProgressiveTaxTruncation scenFiles 100000).protectionMode = true ∧
    (applyProgressiveTaxTruncation scenFiles 100000).files.map
      TokenizedFile.tokens = [1000, 1000, 10000, 88000] := by
  have hsumAbove : sumTokens (aboveAvgFiles scenFiles 100000) = 300000 := by
    rw [aboveAvg_scen]; norm_num [sumTokens]
  have hsumBelow : sumTokens (belowAvgFiles scenFiles 100000) = 12000 := by
    rw [belowAvg_scen]; norm_num [sumTokens]
  obtain ⟨hmode, hlen, hidx⟩ :=
    progressiveTax_protection_mode scenFiles 100000
      (by norm_num [total_scen])
      (by rw [hsumBelow]; norm_num)
      (by rw [aboveAvg_scen]; norm_num)
  refine ⟨hmode, ?_⟩
  have hfiles : (applyProgressiveTaxTruncation scenFiles 100000).files =
      protectedFiles scenFiles 100000 := by
    rw [apply_protection_eq scenFiles 100000 (by rw [deficit_scen]; norm_num)
      (by rw [hsumBelow]; norm_num) (by rw [aboveAvg_scen]; norm_num)]
  rw [hfiles]
  unfold protectedFiles
  rw [tokenize_scen, avgTax_scen, hsumAbove, deficit_scen]
  norm_num [isAboveAvg, taxFile]

lemma tokenize_tokens_nonneg (files : List TextFile) (f : TokenizedFile)
    (hf : f ∈ tokenize files) : 0 ≤ f.tokens := by
  unfold tokenize at hf
  rw [List.mem_map] at hf
  obtain ⟨a, _, rfl⟩ := hf
  exact estimateTokens_nonneg _

/-- When the tax cannot exceed the size (`deficit ≤ denom`, sizes nonnegative),
the `max 0` floor in the loop body never engages. -/
lemma taxFile_tokens_eq (T d : Int) (f : TokenizedFile) (h0 : 0 ≤ f.tokens)
    (hT : 0 < T) (_hd : 0 ≤ d) (hdT : d ≤ T) :
    (taxFile T d f).tokens = f.tokens - ⌈(f.tokens : ℚ) / (T : ℚ) * (d : ℚ)⌉ := by
  rw [taxFile_tokens]
  have hTQ : (0 : ℚ) < (T : ℚ) := by exact_mod_cast hT
  have hceil : ⌈(f.tokens : ℚ) / (T : ℚ) * (d : ℚ)⌉ ≤ f.tokens := by
    apply Int.ceil_le.mpr
    have h1 : (f.tokens : ℚ) / (T : ℚ) * (d : ℚ) ≤ (f.tokens : ℚ) / (T : ℚ) * (T : ℚ) := by
      apply mul_le_mul_of_nonneg_left (by exact_mod_cast hdT)
      exact div_nonneg (by exact_mod_cast h0) (le_of_lt hTQ)
    rw [div_mul_cancel₀ _ (ne_of_gt hTQ)] at h1
    exact h1
  omega

/-- Per-file rounding tolerance in fallback mode: the retained size differs
from the exactly proportional share `s * target / total` by less than one
token (stated cross-multiplied over `ℤ`). -/
lemma taxFile_rounding (T d : Int) (f : TokenizedFile) (h0 : 0 ≤ f.tokens)
    (hT : 0 < T) (hd : 0 ≤ d) (hdT : d ≤ T) :
    0 ≤ f.tokens * (T - d) - (taxFile T d f).tokens * T ∧
    f.tokens * (T - d) - (taxFile T d f).tokens * T < T := by
  rw [taxFile_tokens_eq T d f h0 hT hd hdT]
  have hTQ : (0 : ℚ) < (T : ℚ) := by exact_mod_cast hT
  have hTQ0 : (T : ℚ) ≠ 0 := ne_of_gt hTQ
  set c : Int := ⌈(f.tokens : ℚ) / (T : ℚ) * (d : ℚ)⌉ with hc
  have hle : (f.tokens : ℚ) * (d : ℚ) ≤ (c : ℚ) * (T : ℚ) := by
    have h1 : (f.tokens : ℚ) / (T : ℚ) * (d : ℚ) ≤ (c : ℚ) := Int.le_ceil _
    have h2 := mul_le_mul_of_nonneg_right h1 (le_of_lt hTQ)
    rw [div_mul_eq_mul_div, div_mul_cancel₀ _ hTQ0] at h2
    exact h2
  have hlt : (c : ℚ) * (T : ℚ) < (f.tokens : ℚ) * (d : ℚ) + (T : ℚ) := by
    have h1 : (c : ℚ) < (f.tokens : ℚ) / (T : ℚ) * (d : ℚ) + 1 :=
      Int.ceil_lt_add_one _
    have h2 := mul_lt_mul_of_pos_right h1 hTQ
    rw [add_mul, one_mul, div_mul_eq_mul_div, div_mul_cancel₀ _ hTQ0] at h2
    exact h2
  have hle' : f.tokens * d ≤ c * T := by exact_mod_cast hle
  have hlt' : c * T < f.tokens * d + T := by exact_mod_cast hlt
  constructor <;> nlinarith

/-- The taxes collected in fallback mode sum to at least the deficit, so the
post-truncation total is at most `total - deficit = target`. -/
lemma sumTokens_fallback_le (T d : Int) (hT : 0 < T) (hd : 0 ≤ d) (hdT : d ≤ T) :
    ∀ fs : List TokenizedFile, (∀ f ∈ fs, 0 ≤ f.tokens) →
    (sumTokens fs : ℚ) / (T : ℚ) * (d : ℚ) ≤
      ((sumTokens (fs.map (taxFile T d)) : ℚ) - (sumTokens fs : ℚ)) * (-1) := by
  intro fs hpos
  induction fs with
  | nil => simp [sumTokens]
  | cons f fs ih =>
    have h0 : 0 ≤ f.tokens := hpos f (List.mem_cons_self f fs)
    have ih' := ih (fun g hg => hpos g (List.mem_cons_of_mem f hg))
    have hhead : (f.tokens : ℚ) / (T : ℚ) * (d : ℚ) ≤
        (⌈(f.tokens : ℚ) / (T : ℚ) * (d : ℚ)⌉ : ℚ) := Int.le_ceil _
    have heq : (taxFile T d f).tokens =
        f.tokens - ⌈(f.tokens : ℚ) / (T : ℚ) * (d : ℚ)⌉ :=
      taxFile_tokens_eq T d f h0 hT hd hdT
    have hsum : sumTokens (f :: fs) = f.tokens + sumTokens fs := by
      simp [sumTokens]
    have hsum2 : sumTokens ((f :: fs).map (taxFile T d)) =
        (taxFile T d f).tokens + sumTokens (fs.map (taxFile T d)) := by
      simp [sumTokens]
    rw [hsum, hsum2, heq]
    push_cast
    rw [add_div, add_mul]
    push_cast at ih'
    linarith

/-- C2: in fallback mode (total above target and the protection branch not
taken), every file of size `s` keeps `max 0 (s - ⌈s / total * deficit⌉)`
tokens, `protectionMode = false`, the retained share differs from the exact
proportion `s * target / total` by less than one token, and for `target ≥ 0`
the post-truncation total is at most the target. -/
theorem progressiveTax_fallback_mode (files : List TextFile) (target : Int)
    (hover : target < sumTokens (tokenize files))
    (hfb : ¬(sumTokens (belowAvgFiles files target) ≤ target ∧
        0 < (aboveAvgFiles files target).length))
    (htgt : 0 ≤ target) :
    (applyProgressiveTaxTruncation files target).protectionMode = false ∧
    (applyProgressiveTaxTruncation files target).files.length =
      (tokenize files).length ∧
    (∀ i (h1 : i < (tokenize files).length)
      (h2 : i < (applyProgressiveTaxTruncation files target).files.length),
      ((applyProgressiveTaxTruncation files target).files[i]).tokens =
        max 0 (((tokenize files)[i]).tokens -
          ⌈(((tokenize files)[i]).tokens : ℚ) / (sumTokens (tokenize files) : ℚ) *
            (deficitOf files target : ℚ)⌉) ∧
      0 ≤ ((tokenize files)[i]).tokens * target -
        ((applyProgressiveTaxTruncation files target).files[i]).tokens *
          sumTokens (tokenize files) ∧
      ((tokenize files)[i]).tokens * target -
        ((applyProgressiveTaxTruncation files target).files[i]).tokens *
          sumTokens (tokenize files) < sumTokens (tokenize files)) ∧
    sumTokens (applyProgressiveTaxTruncation files target).files ≤ target := by
  have hdef : 0 < deficitOf files target := by
    have : deficitOf files target = sumTokens (tokenize files) - target := rfl
    omega
  have hT : 0 < sumTokens (tokenize files) := by omega
  have hd0 : 0 ≤ deficitOf files target := le_of_lt hdef
  have hdT : deficitOf files target ≤ sumTokens (tokenize files) := by
    have : deficitOf files target = sumTokens (tokenize files) - target := rfl
    omega
  rw [apply_fallback_eq files target hdef hfb]
  refine ⟨rfl, fallbackFiles_length files target, ?_, ?_⟩
  · intro i h1 h2
    rw [fallbackFiles_getElem files target i h1 h2, taxFile_tokens]
    refine ⟨rfl, ?_⟩
    have h0 : 0 ≤ ((tokenize files)[i]).tokens :=
      tokenize_tokens_nonneg files _ (List.getElem_mem h1)
    have := taxFile_rounding (sumTokens (tokenize files)) (deficitOf files target)
      ((tokenize files)[i]) h0 hT hd0 hdT
    have htd : sumTokens (tokenize files) - deficitOf files target = target := by
      have : deficitOf files target = sumTokens (tokenize files) - target := rfl
      omega
    rw [htd] at this
    exact this
  · show sumTokens (fallbackFiles files target) ≤ target
    have hkey := sumTokens_fallback_le (sumTokens (tokenize files))
      (deficitOf files target) hT hd0 hdT (tokenize files)
      (fun f hf => tokenize_tokens_nonneg files f hf)
    have hTQ : (0 : ℚ) < (sumTokens (tokenize files) : ℚ) := by exact_mod_cast hT
    rw [div_self (ne_of_gt hTQ), one_mul] at hkey
    have hkey2 : (deficitOf files target : ℚ) ≤
        (sumTokens (tokenize files) : ℚ) -
          (sumTokens ((tokenize files).map
            (taxFile (sumTokens (tokenize files)) (deficitOf files target))) : ℚ) := by
      linarith
    have hkey3 : deficitOf files target ≤
        sumTokens (tokenize files) -
          sumTokens ((tokenize files).map
            (taxFile (sumTokens (tokenize files)) (deficitOf files target))) := by
      exact_mod_cast hkey2
    have hfb' : sumTokens (fallbackFiles files target) =
        sumTokens ((tokenize files).map
          (taxFile (sumTokens (tokenize files)) (deficitOf files target))) := rfl
    have : deficitOf files target = sumTokens (tokenize files) - target := rfl
    omega

lemma tokenize_scen2 : tokenize scen2Files =
    [⟨"a", mkContent 447, 149, 149⟩, ⟨"b", mkContent 753, 251, 251⟩] := by
  norm_num [tokenize, scen2Files, estimateTokens_mkContent]

lemma total_scen2 : sumTokens (tokenize scen2Files) = 400 := by
  norm_num [sumTokens, tokenize_scen2]

lemma deficit_scen2 : deficitOf scen2Files 100 = 300 := by
  norm_num [deficitOf, total_scen2]

lemma avgTax_scen2 : avgTax scen2Files 100 = 150 := by
  rw [avgTax, deficit_scen2, tokenize_length]
  norm_num [scen2Files]

lemma belowAvg_scen2 : belowAvgFiles scen2Files 100 =
    [⟨"a", mkContent 447, 149, 149⟩] := by
  unfold belowAvgFiles
  rw [tokenize_scen2, avgTax_scen2]
  norm_num [isBelowAvg, List.filter]

/-- C2 witness: the `{149, 251} → target 100` scenario lands in fallback mode,
keeps 37 and 62 tokens (both within one token of 25 percent) and sums to
99 ≤ 100. -/
theorem progressiveTax_fallback_mode_witness :
    (applyProgressiveTaxTruncation scen2Files 100).protectionMode = false ∧
    (applyProgressiveTaxTruncation scen2Files 100).files.map
      TokenizedFile.tokens = [37, 62] ∧
    sumTokens (applyProgressiveTaxTruncation scen2Files 100).files ≤ 100 := by
  have hfb : ¬(sumTokens (belowAvgFiles scen2Files 100) ≤ 100 ∧
      0 < (aboveAvgFiles scen2Files 100).length) := by
    rintro ⟨hcon, -⟩
    rw [belowAvg_scen2] at hcon
    norm_num [sumTokens] at hcon
  obtain ⟨hmode, hlen, hidx, hsum⟩ :=
    progressiveTax_fallback_mode scen2Files 100
      (by norm_num [total_scen2]) hfb (by norm_num)
  refine ⟨hmode, ?_, hsum⟩
  have hfiles : (applyProgressiveTaxTruncation scen2Files 100).files =
      fallbackFiles scen2Files 100 := by
    rw [apply_fallback_eq scen2Files 100 (by rw [deficit_scen2]; norm_num) hfb]
  rw [hfiles]
  unfold fallbackFiles
  rw [total_scen2, deficit_scen2, tokenize_scen2]
  norm_num [taxFile]
  have h1 : (⌈(447 : ℚ) / 4⌉ : Int) = 112 := by
    rw [Int.ceil_eq_iff]; norm_num
  have h2 : (⌈(753 : ℚ) / 4⌉ : Int) = 189 := by
    rw [Int.ceil_eq_iff]; norm_num
  rw [h1, h2]
  norm_num

lemma truncationSuffix_length : truncationSuffix.length = 24 := by decide

lemma tokenize_cex : tokenize cexFiles = [⟨"a", mkContent 6, 2, 2⟩] := by
  norm_num [tokenize, cexFiles, estimateTokens_mkContent]

lemma total_cex : sumTokens (tokenize cexFiles) = 2 := by
  norm_num [sumTokens, tokenize_cex]

lemma deficit_cex : deficitOf cexFiles 1 = 1 := by
  norm_num [deficitOf, total_cex]

lemma avgTax_cex : avgTax cexFiles 1 = 1 := by
  rw [avgTax, deficit_cex, tokenize_length]
  norm_num [cexFiles]

lemma belowAvg_cex : belowAvgFiles cexFiles 1 = [] := by
  unfold belowAvgFiles
  rw [tokenize_cex, avgTax_cex]
  norm_num [isBelowAvg, List.filter]

lemma aboveAvg_cex : aboveAvgFiles cexFiles 1 = [⟨"a", mkContent 6, 2, 2⟩] := by
  unfold aboveAvgFiles
  rw [tokenize_cex, avgTax_cex]
  norm_num [isAboveAvg, List.filter]

lemma sumAbove_cex : sumTokens (aboveAvgFiles cexFiles 1) = 2 := by
  rw [aboveAvg_cex]; norm_num [sumTokens]

/-- C4 counterexample: on a 2-token file truncated against target 1 the
result reports 1 token, but estimating its actual post-truncation content
(3 kept characters plus the 24-character suffix) gives 9 tokens — the
reported size is the tax-arithmetic value, not recomputed from the content. -/
theorem truncation_size_recompute_cex :
    (applyProgressiveTaxTruncation cexFiles 1).files.map
      TokenizedFile.tokens = [1] ∧
    (applyProgressiveTaxTruncation cexFiles 1).files.map
      (fun f => estimateTokens f.content) = [9] := by
  have hfiles : (applyProgressiveTaxTruncation cexFiles 1).files =
      protectedFiles cexFiles 1 := by
    rw [apply_protection_eq cexFiles 1 (by rw [deficit_cex]; norm_num)
      (by rw [belowAvg_cex]; norm_num [sumTokens])
      (by rw [aboveAvg_cex]; norm_num)]
  rw [hfiles]
  unfold protectedFiles
  rw [avgTax_cex, sumAbove_cex, deficit_cex, tokenize_cex]
  have hceil : (⌈(2 : ℚ) / 2 * 1⌉ : Int) = 1 := by norm_num
  constructor
  · norm_num [isAboveAvg, taxFile, hceil]
  · norm_num [isAboveAvg, taxFile, hceil, truncateContent, mkContent_length,
      estimateTokens, List.length_append, List.length_take,
      truncationSuffix_length]

lemma taxFile_content (denom d : Int) (f : TokenizedFile) :
    (taxFile denom d f).content = truncateContent f.content
      ((max 0 (f.tokens - ⌈(f.tokens : ℚ) / (denom : ℚ) * (d : ℚ)⌉) * 3).toNat) := rfl

/-- A taxed file either keeps its content (and then the stored size equals
the size estimated from the content) or is cut, in which case its content
carries the suffix and estimates to the stored size plus 8. -/
lemma taxFile_size (denom d : Int) (f : TokenizedFile)
    (htok : f.tokens = estimateTokens f.content)
    (hdenom : 0 < denom) (hd : 0 ≤ d) :
    (taxFile denom d f).tokens = estimateTokens (taxFile denom d f).content ∨
    (estimateTokens (taxFile denom d f).content = (taxFile denom d f).tokens + 8 ∧
      truncationSuffix.IsSuffix (taxFile denom d f).content) := by
  have hpos : 0 ≤ f.tokens := htok ▸ estimateTokens_nonneg f.content
  rw [taxFile_tokens, taxFile_content]
  set c : Int := ⌈(f.tokens : ℚ) / (denom : ℚ) * (d : ℚ)⌉ with hc
  have hc0 : 0 ≤ c := by
    apply Int.ceil_nonneg
    apply mul_nonneg
    · exact div_nonneg (by exact_mod_cast hpos) (by exact_mod_cast le_of_lt hdenom)
    · exact_mod_cast hd
  set g : Int := max 0 (f.tokens - c) with hg
  have hg0 : 0 ≤ g := le_max_left _ _
  have hgs : g ≤ f.tokens := max_le hpos (by omega)
  rw [truncateContent]
  by_cases hle : f.content.length ≤ (g * 3).toNat
  · left
    rw [if_pos hle, ← htok]
    rw [estimateTokens] at htok
    omega
  · right
    rw [if_neg hle]
    constructor
    · rw [estimateTokens, List.length_append, List.length_take,
        truncationSuffix_length]
      have hmin : min ((g * 3).toNat) f.content.length = (g * 3).toNat :=
        Nat.min_eq_left (le_of_lt (Nat.lt_of_not_le hle))
      rw [hmin]
      omega
    · exact List.suffix_append _ _

lemma tokenize_getElem_tokens (files : List TextFile) (i : Nat)
    (h : i < (tokenize files).length) :
    ((tokenize files)[i]).tokens = estimateTokens ((tokenize files)[i]).content := by
  unfold tokenize at h ⊢
  simp

lemma avgTax_pos (files : List TextFile) (target : Int)
    (hdef : 0 < deficitOf files target) (hne : 0 < (tokenize files).length) :
    0 < avgTax files target := by
  unfold avgTax
  apply div_pos (by exact_mod_cast hdef) (by exact_mod_cast hne)

/-- The above-average group has positive total size whenever it is non-empty
and the deficit is positive. -/
lemma sumAbove_pos (files : List TextFile) (target : Int)
    (hdef : 0 < deficitOf files target)
    (habove : 0 < (aboveAvgFiles files target).length) :
    0 < sumTokens (aboveAvgFiles files target) := by
  have hne : 0 < (tokenize files).length := by
    rcases List.exists_mem_of_length_pos habove with ⟨f, hf⟩
    have := (List.mem_filter.mp hf).1
    exact List.length_pos.mpr (List.ne_nil_of_mem this)
  have havg := avgTax_pos files target hdef hne
  have hall : ∀ x ∈ (aboveAvgFiles files target).map TokenizedFile.tokens, 0 < x := by
    intro x hx
    rw [List.mem_map] at hx
    obtain ⟨f, hf, rfl⟩ := hx
    have hmem := List.mem_filter.mp hf
    have : avgTax files target ≤ (f.tokens : ℚ) :=
      (isAboveAvg_eq_true_iff _ _).mp hmem.2
    have : (0 : ℚ) < (f.tokens : ℚ) := lt_of_lt_of_le havg this
    exact_mod_cast this
  have hne2 : (aboveAvgFiles files target).map TokenizedFile.tokens ≠ [] := by
    intro hcon
    have hlen := congrArg List.length hcon
    rw [List.length_map] at hlen
    simp only [List.length_nil] at hlen
    omega
  exact List.sum_pos _ hall hne2

/-- C4 amended: every returned file's reported size is the tax-arithmetic
value; it equals the size estimated from the actual content exactly for files
whose content was not cut, while a cut file carries the visible suffix and
its actual content estimates to the reported size plus 8 (the suffix
overhead) — the size is never recomputed from the truncated content. -/
theorem truncation_size_amended (files : List TextFile) (target : Int)
    (htgt : 0 ≤ target) :
    ∀ i (h2 : i < (applyProgressiveTaxTruncation files target).files.length),
      ((applyProgressiveTaxTruncation files target).files[i]).tokens =
        estimateTokens ((applyProgressiveTaxTruncation files target).files[i]).content ∨
      (estimateTokens ((applyProgressiveTaxTruncation files target).files[i]).content =
        ((applyProgressiveTaxTruncation files target).files[i]).tokens + 8 ∧
       truncationSuffix.IsSuffix
         ((applyProgressiveTaxTruncation files target).files[i]).content) := by
  by_cases hdef : deficitOf files target ≤ 0
  · have hfe : (applyProgressiveTaxTruncation files target).files = tokenize files := by
      rw [apply_under_eq files target hdef]
    intro i h2
    simp only [hfe] at h2 ⊢
    exact Or.inl (tokenize_getElem_tokens files i h2)
  · have hdef' : 0 < deficitOf files target := by omega
    by_cases hprot : sumTokens (belowAvgFiles files target) ≤ target ∧
        0 < (aboveAvgFiles files target).length
    · have hfe : (applyProgressiveTaxTruncation files target).files =
          protectedFiles files target := by
        rw [apply_protection_eq files target hdef' hprot.1 hprot.2]
      intro i h2
      simp only [hfe] at h2 ⊢
      have h2' : i < (tokenize files).length := by
        have := protectedFiles_length files target
        omega
      rw [protectedFiles_getElem files target i h2' h2]
      by_cases habv : isAboveAvg (avgTax files target) ((tokenize files)[i]) = true
      · rw [if_pos habv]
        exact taxFile_size _ _ _ (tokenize_getElem_tokens files i h2')
          (sumAbove_pos files target hdef' hprot.2) (le_of_lt hdef')
      · rw [if_neg habv]
        exact Or.inl (tokenize_getElem_tokens files i h2')
    · have hfe : (applyProgressiveTaxTruncation files target).files =
          fallbackFiles files target := by
        rw [apply_fallback_eq files target hdef' hprot]
      intro i h2
      simp only [hfe] at h2 ⊢
      have h2' : i < (tokenize files).length := by
        have := fallbackFiles_length files target
        omega
      rw [fallbackFiles_getElem files target i h2' h2]
      have hT : 0 < sumTokens (tokenize files) := by
        have : deficitOf files target = sumTokens (tokenize files) - target := rfl
        omega
      exact taxFile_size _ _ _ (tokenize_getElem_tokens files i h2') hT
        (le_of_lt hdef')

/-- C4 amended witness: the amended statement instantiated on the concrete
2-token file against target 1. -/
theorem truncation_size_amended_witness :
    (0 : Int) ≤ 1 ∧
    (∀ i (h2 : i < (applyProgressiveTaxTruncation cexFiles 1).files.length),
      ((applyProgressiveTaxTruncation cexFiles 1).files[i]).tokens =
        estimateTokens ((applyProgressiveTaxTruncation cexFiles 1).files[i]).content ∨
      (estimateTokens ((applyProgressiveTaxTruncation cexFiles 1).files[i]).content =
        ((applyProgressiveTaxTruncation cexFiles 1).files[i]).tokens + 8 ∧
       truncationSuffix.IsSuffix
         ((applyProgressiveTaxTruncation cexFiles 1).files[i]).content)) :=
  ⟨by norm_num, truncation_size_amended cexFiles 1 (by norm_num)⟩

lemma publishPIAux_succ (env : PublishEnv) (cid : String) (fuel attempt : Nat) :
    publishPIAux env cid (fuel + 1) attempt =
      publishPIStep env cid attempt (publishPIAux env cid fuel (attempt + 1)) :=
  rfl

lemma publishPIStep_ok (env : PublishEnv) (cid : String) (attempt : Nat)
    (rest : PublishResult × List AttemptLog) (tip : String) (ver : Int)
    (h : env.append attempt (env.entityTip attempt) = .ok tip ver) :
    publishPIStep env cid attempt rest =
      (.ok cid tip ver,
        [⟨env.entityTip attempt, env.entityTip attempt, .ok tip ver, none⟩]) := by
  unfold publishPIStep
  simp only [h]

lemma publishPIStep_err_cas (env : PublishEnv) (cid : String) (attempt : Nat)
    (rest : PublishResult × List AttemptLog) (msg : String)
    (h : env.append attempt (env.entityTip attempt) = .err msg)
    (hcas : isCASFailure msg = true ∧ attempt < publishPIMaxRetries - 1) :
    publishPIStep env cid attempt rest =
      (rest.1,
        ⟨env.entityTip attempt, env.entityTip attempt, .err msg,
          some (publishPIBaseDelay * 2 ^ attempt + env.jitter attempt)⟩ ::
          rest.2) := by
  unfold publishPIStep
  simp only [h]
  rw [if_pos hcas]

lemma publishPIStep_err_stop (env : PublishEnv) (cid : String) (attempt : Nat)
    (rest : PublishResult × List AttemptLog) (msg : String)
    (h : env.append attempt (env.entityTip attempt) = .err msg)
    (hncas : ¬(isCASFailure msg = true ∧ attempt < publishPIMaxRetries - 1)) :
    publishPIStep env cid attempt rest =
      (.failed msg,
        [⟨env.entityTip attempt, env.entityTip attempt, .err msg, none⟩]) := by
  unfold publishPIStep
  simp only [h]
  rw [if_neg hncas]

/-- The loop makes at most `fuel` iterations. -/
lemma publishPIAux_length_le (env : PublishEnv) (cid : String) :
    ∀ fuel attempt, (publishPIAux env cid fuel attempt).2.length ≤ fuel := by
  intro fuel
  induction fuel with
  | zero => intro attempt; simp [publishPIAux]
  | succ fuel ih =>
    intro attempt
    rw [publishPIAux_succ]
    cases happ : env.append attempt (env.entityTip attempt) with
    | ok tip ver =>
      rw [publishPIStep_ok env cid attempt _ tip ver happ]
      simp
    | err msg =>
      by_cases hcas : isCASFailure msg = true ∧ attempt < publishPIMaxRetries - 1
      · rw [publishPIStep_err_cas env cid attempt _ msg happ hcas]
        simpa using ih (attempt + 1)
      · rw [publishPIStep_err_stop env cid attempt _ msg happ hcas]
        simp

/-- With fuel left, the loop records at least one iteration. -/
lemma publishPIAux_length_pos (env : PublishEnv) (cid : String)
    (fuel attempt : Nat) (hf : 0 < fuel) :
    0 < (publishPIAux env cid fuel attempt).2.length := by
  cases fuel with
  | zero => omega
  | succ fuel =>
    rw [publishPIAux_succ]
    cases happ : env.append attempt (env.entityTip attempt) with
    | ok tip ver =>
      rw [publishPIStep_ok env cid attempt _ tip ver happ]; simp
    | err msg =>
      by_cases hcas : isCASFailure msg = true ∧ attempt < publishPIMaxRetries - 1
      · rw [publishPIStep_err_cas env cid attempt _ msg happ hcas]; simp
      · rw [publishPIStep_err_stop env cid attempt _ msg happ hcas]; simp

/-- Iteration `k` of the loop fetches the tip for attempt `attempt + k` and
conditions its write on exactly that freshly-fetched tip. -/
lemma publishPIAux_entry (env : PublishEnv) (cid : String) :
    ∀ fuel attempt k
      (hk : k < (publishPIAux env cid fuel attempt).2.length),
      ((publishPIAux env cid fuel attempt).2[k]).fetchedTip =
        env.entityTip (attempt + k) ∧
      ((publishPIAux env cid fuel attempt).2[k]).usedTip =
        env.entityTip (attempt + k) ∧
      ((publishPIAux env cid fuel attempt).2[k]).outcome =
        env.append (attempt + k) (env.entityTip (attempt + k)) := by
  intro fuel
  induction fuel with
  | zero => intro attempt k hk; simp [publishPIAux] at hk
  | succ fuel ih =>
    intro attempt k hk
    simp only [publishPIAux_succ] at hk ⊢
    cases happ : env.append attempt (env.entityTip attempt) with
    | ok tip ver =>
      simp only [publishPIStep_ok env cid attempt _ tip ver happ] at hk ⊢
      simp at hk
      subst hk
      simp [happ]
    | err msg =>
      by_cases hcas : isCASFailure msg = true ∧ attempt < publishPIMaxRetries - 1
      · simp only [publishPIStep_err_cas env cid attempt _ msg happ hcas] at hk ⊢
        cases k with
        | zero => simp [happ]
        | succ j =>
          simp only [List.length_cons] at hk
          have hj : j < (publishPIAux env cid fuel (attempt + 1)).2.length := by
            omega
          have hfacts := ih (attempt + 1) j hj
          have harith : attempt + 1 + j = attempt + (j + 1) := by omega
          rw [harith] at hfacts
          simpa only [List.getElem_cons_succ] using hfacts
      · simp only [publishPIStep_err_stop env cid attempt _ msg happ hcas] at hk ⊢
        simp at hk
        subst hk
        simp [happ]

/-- A successful append on iteration `k` ends the loop with the uploaded
`cid` and the returned tip/version, iteration `k` being the last. -/
lemma publishPIAux_ok_result (env : PublishEnv) (cid : String) :
    ∀ fuel attempt k
      (hk : k < (publishPIAux env cid fuel attempt).2.length)
      (tip : String) (ver : Int),
      ((publishPIAux env cid fuel attempt).2[k]).outcome = .ok tip ver →
      (publishPIAux env cid fuel attempt).1 = .ok cid tip ver ∧
      (publishPIAux env cid fuel attempt).2.length = k + 1 := by
  intro fuel
  induction fuel with
  | zero => intro attempt k hk; simp [publishPIAux] at hk
  | succ fuel ih =>
    intro attempt k hk tip ver hout
    simp only [publishPIAux_succ] at hk hout ⊢
    cases happ : env.append attempt (env.entityTip attempt) with
    | ok tip0 ver0 =>
      simp only [publishPIStep_ok env cid attempt _ tip0 ver0 happ] at hk hout ⊢
      simp at hk
      subst hk
      simp at hout
      obtain ⟨rfl, rfl⟩ := hout
      exact ⟨rfl, rfl⟩
    | err msg =>
      by_cases hcas : isCASFailure msg = true ∧ attempt < publishPIMaxRetries - 1
      · simp only [publishPIStep_err_cas env cid attempt _ msg happ hcas] at hk hout ⊢
        cases k with
        | zero => simp at hout
        | succ j =>
          simp only [List.length_cons] at hk
          have hj : j < (publishPIAux env cid fuel (attempt + 1)).2.length := by
            omega
          rw [List.getElem_cons_succ] at hout
          have := ih (attempt + 1) j hj tip ver hout
          simp only [List.length_cons]
          exact ⟨this.1, by omega⟩
      · simp only [publishPIStep_err_stop env cid attempt _ msg happ hcas] at hk hout ⊢
        simp at hk
        subst hk
        simp at hout

/-- A rejected append on iteration `k`: a CAS conflict before the last
attempt sleeps the exponential-backoff-plus-jitter delay and another
iteration follows; any other rejection (or a conflict on the last attempt)
ends the loop immediately, propagating that very message. -/
lemma publishPIAux_err_result (env : PublishEnv) (cid : String) :
    ∀ fuel attempt, attempt + fuel = publishPIMaxRetries →
    ∀ k (hk : k < (publishPIAux env cid fuel attempt).2.length)
      (msg : String),
      ((publishPIAux env cid fuel attempt).2[k]).outcome = .err msg →
      ((isCASFailure msg = true ∧ attempt + k < publishPIMaxRetries - 1) →
        ((publishPIAux env cid fuel attempt).2[k]).delayMs =
          some (publishPIBaseDelay * 2 ^ (attempt + k) +
            env.jitter (attempt + k)) ∧
        k + 1 < (publishPIAux env cid fuel attempt).2.length) ∧
      (¬(isCASFailure msg = true ∧ attempt + k < publishPIMaxRetries - 1) →
        ((publishPIAux env cid fuel attempt).2[k]).delayMs = none ∧
        (publishPIAux env cid fuel attempt).1 = .failed msg ∧
        (publishPIAux env cid fuel attempt).2.length = k + 1) := by
  have h5 : publishPIMaxRetries = 5 := rfl
  intro fuel
  induction fuel with
  | zero => intro attempt hinv k hk; simp [publishPIAux] at hk
  | succ fuel ih =>
    intro attempt hinv k hk msg hout
    simp only [publishPIAux_succ] at hk hout ⊢
    cases happ : env.append attempt (env.entityTip attempt) with
    | ok tip0 ver0 =>
      simp only [publishPIStep_ok env cid attempt _ tip0 ver0 happ] at hk hout ⊢
      simp at hk
      subst hk
      simp at hout
    | err msg0 =>
      by_cases hcas : isCASFailure msg0 = true ∧ attempt < publishPIMaxRetries - 1
      · simp only [publishPIStep_err_cas env cid attempt _ msg0 happ hcas] at hk hout ⊢
        cases k with
        | zero =>
          simp at hout
          subst hout
          constructor
          · intro _
            refine ⟨by simp, ?_⟩
            have hfuel : 0 < fuel := by
              rw [h5] at hinv
              have := hcas.2
              rw [h5] at this
              omega
            have := publishPIAux_length_pos env cid fuel (attempt + 1) hfuel
            simp only [List.length_cons]
            omega
          · intro hncond
            rw [Nat.add_zero] at hncond
            exact absurd hcas hncond
        | succ j =>
          simp only [List.length_cons] at hk
          have hj : j < (publishPIAux env cid fuel (attempt + 1)).2.length := by
            omega
          rw [List.getElem_cons_succ] at hout
          have hrec := ih (attempt + 1) (by omega) j hj msg hout
          have harith : attempt + 1 + j = attempt + (j + 1) := by omega
          rw [harith] at hrec
          simp only [List.getElem_cons_succ, List.length_cons]
          constructor
          · intro hcond
            have := hrec.1 hcond
            exact ⟨this.1, by omega⟩
          · intro hncond
            have := hrec.2 hncond
            exact ⟨this.1, this.2.1, by omega⟩
      · simp only [publishPIStep_err_stop env cid attempt _ msg0 happ hcas] at hk hout ⊢
        simp at hk
        subst hk
        simp at hout
        subst hout
        constructor
        · intro hcond
          rw [Nat.add_zero] at hcond
          exact absurd hcond hcas
        · intro _
          exact ⟨by simp, rfl, rfl⟩

/-- `publishPhase` with rows left to publish: the per-row updates of the busy
branch. -/
lemma publishPhase_busy (st : DOState) (pouts : String → PublishResult)
    (hne : (st.pis.filter toPublishPred).isEmpty = false) :
    publishPhase st pouts =
      { st with
        pis := st.pis.map fun p =>
          if toPublishPred p then piAfterPublish pouts p else p
        alarmSet := true } := by
  unfold publishPhase
  rw [hne]
  rfl

/-- C6: `publishPI` makes at most 5 attempts; every attempt `k` re-fetches
the store's current tip and conditions its compare-and-swap write on exactly
that freshly-read tip (never one from an earlier attempt); a CAS conflict
before the last attempt sleeps `100 * 2 ^ k` plus jitter and retries, while
any other error — or a conflict on the last attempt — propagates at once
with that very message; and in `publishPhase` a failed `publishPI` marks only
its own item `error` while every sibling still receives its own outcome. -/
theorem publishPI_fresh_tip_protocol (env : PublishEnv) (cid : String)
    (st : DOState) (pouts : String → PublishResult) (j : Nat)
    (hj : j < st.pis.length) (m : String)
    (hpub : toPublishPred st.pis[j] = true)
    (hfail : pouts (st.pis[j]).pi = .failed m) :
    (publishPI env cid).2.length ≤ 5 ∧
    (∀ k (hk : k < (publishPI env cid).2.length),
      ((publishPI env cid).2[k]).fetchedTip = env.entityTip k ∧
      ((publishPI env cid).2[k]).usedTip = env.entityTip k ∧
      ((publishPI env cid).2[k]).outcome = env.append k (env.entityTip k)) ∧
    (∀ k (hk : k < (publishPI env cid).2.length) (tip : String) (ver : Int),
      ((publishPI env cid).2[k]).outcome = .ok tip ver →
      (publishPI env cid).1 = .ok cid tip ver ∧
      (publishPI env cid).2.length = k + 1) ∧
    (∀ k (hk : k < (publishPI env cid).2.length) (msg : String),
      ((publishPI env cid).2[k]).outcome = .err msg →
      ((isCASFailure msg = true ∧ k < publishPIMaxRetries - 1) →
        ((publishPI env cid).2[k]).delayMs =
          some (publishPIBaseDelay * 2 ^ k + env.jitter k) ∧
        k + 1 < (publishPI env cid).2.length) ∧
      (¬(isCASFailure msg = true ∧ k < publishPIMaxRetries - 1) →
        ((publishPI env cid).2[k]).delayMs = none ∧
        (publishPI env cid).1 = .failed msg ∧
        (publishPI env cid).2.length = k + 1)) ∧
    (publishPhase st pouts).pis.length = st.pis.length ∧
    (∀ (hj2 : j < (publishPhase st pouts).pis.length),
      (publishPhase st pouts).pis[j] =
        { st.pis[j] with
          status := .error
          error := some ("Publish failed: " ++ m) }) ∧
    (∀ i (hi : i < st.pis.length) (hi2 : i < (publishPhase st pouts).pis.length),
      (toPublishPred st.pis[i] = false →
        (publishPhase st pouts).pis[i] = st.pis[i]) ∧
      (toPublishPred st.pis[i] = true →
        (publishPhase st pouts).pis[i] = piAfterPublish pouts st.pis[i])) := by
  have hmem : st.pis[j] ∈ st.pis.filter toPublishPred :=
    List.mem_filter.mpr ⟨List.getElem_mem hj, hpub⟩
  have hne : (st.pis.filter toPublishPred).isEmpty = false := by
    rw [List.isEmpty_eq_false]
    exact List.ne_nil_of_mem hmem
  have hbusy := publishPhase_busy st pouts hne
  refine ⟨publishPIAux_length_le env cid publishPIMaxRetries 0, ?_, ?_, ?_,
    ?_, ?_, ?_⟩
  · intro k hk
    have := publishPIAux_entry env cid publishPIMaxRetries 0 k hk
    simpa only [Nat.zero_add] using this
  · intro k hk tip ver hout
    exact publishPIAux_ok_result env cid publishPIMaxRetries 0 k hk tip ver hout
  · intro k hk msg hout
    have := publishPIAux_err_result env cid publishPIMaxRetries 0 rfl k hk
      msg hout
    simpa only [Nat.zero_add] using this
  · rw [hbusy]
    simp
  · intro hj2
    simp only [hbusy] at hj2 ⊢
    have hj3 : j < (st.pis.map fun p =>
        if toPublishPred p then piAfterPublish pouts p else p).length := by
      rw [List.length_map]
      exact hj
    show (st.pis.map fun p =>
        if toPublishPred p then piAfterPublish pouts p else p)[j] = _
    rw [List.getElem_map, if_pos hpub]
    unfold piAfterPublish
    simp only [hfail]
  · intro i hi hi2
    simp only [hbusy] at hi2 ⊢
    constructor
    · intro hnp
      show (st.pis.map fun p =>
          if toPublishPred p then piAfterPublish pouts p else p)[i] = _
      rw [List.getElem_map, if_neg (by rw [hnp]; exact Bool.false_ne_true)]
    · intro hp
      show (st.pis.map fun p =>
          if toPublishPred p then piAfterPublish pouts p else p)[i] = _
      rw [List.getElem_map, if_pos hp]

/-- C6 witness: the protocol facts instantiated on the concrete store
behavior, and the phase-level isolation on the concrete two-item state. -/
theorem publishPI_fresh_tip_protocol_witness :
    (publishPI pubEnvEx "cid").2.length ≤ 5 ∧
    (∀ k (hk : k < (publishPI pubEnvEx "cid").2.length),
      ((publishPI pubEnvEx "cid").2[k]).fetchedTip = pubEnvEx.entityTip k ∧
      ((publishPI pubEnvEx "cid").2[k]).usedTip = pubEnvEx.entityTip k ∧
      ((publishPI pubEnvEx "cid").2[k]).outcome =
        pubEnvEx.append k (pubEnvEx.entityTip k)) ∧
    (∀ k (hk : k < (publishPI pubEnvEx "cid").2.length) (tip : String)
      (ver : Int),
      ((publishPI pubEnvEx "cid").2[k]).outcome = .ok tip ver →
      (publishPI pubEnvEx "cid").1 = .ok "cid" tip ver ∧
      (publishPI pubEnvEx "cid").2.length = k + 1) ∧
    (∀ k (hk : k < (publishPI pubEnvEx "cid").2.length) (msg : String),
      ((publishPI pubEnvEx "cid").2[k]).outcome = .err msg →
      ((isCASFailure msg = true ∧ k < publishPIMaxRetries - 1) →
        ((publishPI pubEnvEx "cid").2[k]).delayMs =
          some (publishPIBaseDelay * 2 ^ k + pubEnvEx.jitter k) ∧
        k + 1 < (publishPI pubEnvEx "cid").2.length) ∧
      (¬(isCASFailure msg = true ∧ k < publishPIMaxRetries - 1) →
        ((publishPI pubEnvEx "cid").2[k]).delayMs = none ∧
        (publishPI pubEnvEx "cid").1 = .failed msg ∧
        (publishPI pubEnvEx "cid").2.length = k + 1)) ∧
    (publishPhase pubSt pubOutEx).pis.length = 2 ∧
    (∀ (hj2 : 0 < (publishPhase pubSt pubOutEx).pis.length),
      (publishPhase pubSt pubOutEx).pis[0] =
        ⟨"p1", .error, 0, some "d1", none, none, none,
          some ("Publish failed: " ++ "409 conflict")⟩) ∧
    (∀ i (hi : i < pubSt.pis.length)
      (hi2 : i < (publishPhase pubSt pubOutEx).pis.length),
      (toPublishPred pubSt.pis[i] = false →
        (publishPhase pubSt pubOutEx).pis[i] = pubSt.pis[i]) ∧
      (toPublishPred pubSt.pis[i] = true →
        (publishPhase pubSt pubOutEx).pis[i] =
          piAfterPublish pubOutEx pubSt.pis[i])) :=
  publishPI_fresh_tip_protocol pubEnvEx "cid" pubSt pubOutEx 0 (by decide)
    "409 conflict" rfl rfl

/-- C9: a submission while the persisted job is in a non-terminal phase is
answered with `already_processing` carrying the current phase, and the whole
persisted state is returned unchanged — no resets, no second job record. -/
theorem handleProcess_already_processing (st : DOState) (b : BatchState)
    (req : ProcessRequest) (now : Int) (hb : st.batch = some b)
    (hdone : b.phase ≠ .DONE) (herr : b.phase ≠ .ERROR) :
    handleProcess st req now = (st, .alreadyProcessing req.chunk_id b.phase) := by
  simp only [handleProcess, hb]
  rw [if_pos ⟨hdone, herr⟩]

/-- C9 witness: resubmitting the active chunk returns `already_processing`
with phase PROCESSING and leaves the state (including the retry count)
untouched. -/
theorem handleProcess_already_processing_witness :
    handleProcess activeSt resubmitReq 5 =
      (activeSt, .alreadyProcessing "c1" .PROCESSING) :=
  handleProcess_already_processing activeSt activeBatch resubmitReq 5 rfl
    (by decide) (by decide)

/-- C10 counterexample: a submission with an empty item list arriving at a
terminal-phase chunk IS rejected (`Missing pis array`, a 400) and creates no
job — yet the old records are already cleared — contradicting the claim that
every such request is accepted with a fresh job. -/
theorem handleProcess_terminal_empty_cex :
    termSt.batch ≠ none ∧
    (handleProcess termSt emptyReq 0).2 = ProcessResponse.badRequest ∧
    (handleProcess termSt emptyReq 0).1.batch = none := by decide

/-- C10 amended: a submission with at least one item arriving at a
terminal-phase (DONE/ERROR) chunk is not rejected: every persisted record is
deleted and a fresh job is created with all submitted items pending at retry
count 0; a submission with no items still clears the old records but is
answered with a validation error and creates no job (covered by the
counterexample). -/
theorem handleProcess_terminal_restart (st : DOState) (b : BatchState)
    (req : ProcessRequest) (now : Int) (hb : st.batch = some b)
    (hterm : b.phase = .DONE ∨ b.phase = .ERROR) (hpis : req.pis ≠ []) :
    handleProcess st req now =
      (restartedState req now, .accepted req.chunk_id req.pis.length) ∧
    ∀ p ∈ (handleProcess st req now).1.pis,
      p.status = .pending ∧ p.retry_count = 0 := by
  have hcond : ¬(b.phase ≠ Phase.DONE ∧ b.phase ≠ Phase.ERROR) := by
    rcases hterm with h | h <;> simp [h]
  have hne : req.pis.isEmpty = false := by
    rw [List.isEmpty_eq_false]; exact hpis
  have h1 : handleProcess st req now = startJob (clearAllTables st) req now := by
    simp only [handleProcess, hb]
    rw [if_neg hcond]
  have h2 : startJob (clearAllTables st) req now =
      (restartedState req now, .accepted req.chunk_id req.pis.length) := by
    simp [startJob, clearAllTables, hne, restartedState]
  refine ⟨h1.trans h2, ?_⟩
  intro p hp
  rw [h1, h2] at hp
  simp only [restartedState] at hp
  rw [List.mem_map] at hp
  obtain ⟨x, -, rfl⟩ := hp
  exact ⟨rfl, rfl⟩

/-- C10 amended witness: resubmitting two items to the terminal chunk wipes
the old records and starts a fresh pending job. -/
theorem handleProcess_terminal_restart_witness :
    handleProcess termSt restartReq 7 =
      (restartedState restartReq 7, .accepted "c2" 2) ∧
    ∀ p ∈ (handleProcess termSt restartReq 7).1.pis,
      p.status = .pending ∧ p.retry_count = 0 :=
  handleProcess_terminal_restart termSt termBatch restartReq 7 rfl
    (Or.inl rfl) (by decide)

/-- C8: when the phase dispatch rejects, the alarm handler catches the
exception, records its message as `global_error`, forces the phase to
CALLBACK and schedules the next tick, leaving the item rows untouched. -/
theorem alarm_exception_forces_callback (st : DOState) (b : BatchState)
    (run : DOState → Except String DOState) (msg : String)
    (hb : st.batch = some b) (hrun : run st = .error msg) :
    alarmHandler st run =
      { st with
        batch := some { b with phase := .CALLBACK, global_error := some msg }
        alarmSet := true } ∧
    (alarmHandler st run).batch =
      some { b with phase := .CALLBACK, global_error := some msg } ∧
    (alarmHandler st run).alarmSet = true ∧
    (alarmHandler st run).pis = st.pis := by
  have h1 : alarmHandler st run =
      { st with
        batch := some { b with phase := .CALLBACK, global_error := some msg }
        alarmSet := true } := by
    simp only [alarmHandler, hb, hrun]
  exact ⟨h1, by rw [h1], by rw [h1], by rw [h1]⟩

/-- C8 witness: a dispatch that rejects with message `boom` on the active
state lands in CALLBACK with `global_error = boom` and an alarm set. -/
theorem alarm_exception_forces_callback_witness :
    alarmHandler activeSt (fun _ => .error "boom") =
      { activeSt with
        batch :=
          some { activeBatch with phase := .CALLBACK, global_error := some "boom" }
        alarmSet := true } ∧
    (alarmHandler activeSt (fun _ => .error "boom")).batch =
      some { activeBatch with phase := .CALLBACK, global_error := some "boom" } ∧
    (alarmHandler activeSt (fun _ => .error "boom")).alarmSet = true ∧
    (alarmHandler activeSt (fun _ => .error "boom")).pis = activeSt.pis :=
  alarm_exception_forces_callback activeSt activeBatch
    (fun _ => .error "boom") "boom" rfl rfl

/-- C3 counterexample: with a single still-pending item (reachable when a
phase-fatal error forces the jump to CALLBACK), zero items succeeded and yet
the payload status is `success`, not `error` — the claim's second `iff`
fails. -/
theorem callback_status_iff_cex :
    ([freshPiState "p1"].filter succeededPred).length = 0 ∧
    ([freshPiState "p1"].filter failedPred).length = 0 ∧
    (buildCallbackPayload activeBatch [freshPiState "p1"] 0).status =
      "success" ∧
    (buildCallbackPayload activeBatch [freshPiState "p1"] 0).status ≠
      "error" := by decide

/-- C3 amended: the payload status is `success` iff zero items have status
`error`; it is `error` iff at least one item has status `error` and zero
items are done with a truthy published reference; `partial` iff at least one
errored and at least one succeeded.  (The claim's unconditional `error` iff
fails when both counts are zero.) -/
theorem callback_status_amended (b : BatchState) (pis : List PiState)
    (now : Int) :
    ((buildCallbackPayload b pis now).status = "success" ↔
      (pis.filter failedPred).length = 0) ∧
    ((buildCallbackPayload b pis now).status = "error" ↔
      ((pis.filter failedPred).length ≠ 0 ∧
        (pis.filter succeededPred).length = 0)) ∧
    ((buildCallbackPayload b pis now).status = "partial" ↔
      ((pis.filter failedPred).length ≠ 0 ∧
        (pis.filter succeededPred).length ≠ 0)) := by
  unfold buildCallbackPayload
  by_cases h1 : (pis.filter failedPred).length = 0 <;>
    by_cases h2 : (pis.filter succeededPred).length = 0 <;>
      simp [h1, h2]

/-- C5: a tick of `processPhase` moves the phase to PUBLISHING exactly when
zero rows are pending/processing, and otherwise leaves the phase untouched;
a tick of `publishPhase` moves the phase to CALLBACK exactly when zero rows
are done with a stored description but no `description_cid`, and otherwise
leaves the phase untouched. -/
theorem phase_advance_guarded (maxRetries : Nat) (st : DOState)
    (outcome : String → ProcessOutcome) (ctxWrites : List CtxFileRow)
    (metaWrites : List CtxMetaRow) (pouts : String → PublishResult) :
    ((processPhase maxRetries st outcome ctxWrites metaWrites).batch.map
        BatchState.phase =
      if (st.pis.filter pendingPred).isEmpty then
        st.batch.map fun _ => Phase.PUBLISHING
      else st.batch.map BatchState.phase) ∧
    ((publishPhase st pouts).batch.map BatchState.phase =
      if (st.pis.filter toPublishPred).isEmpty then
        st.batch.map fun _ => Phase.CALLBACK
      else st.batch.map BatchState.phase) := by
  constructor
  · by_cases h : (st.pis.filter pendingPred).isEmpty
    · rw [if_pos h]
      simp only [processPhase, if_pos h, setPhase]
      cases hb : st.batch <;> simp [hb]
    · rw [if_neg h]
      simp only [processPhase, if_neg h]
  · by_cases h : (st.pis.filter toPublishPred).isEmpty
    · rw [if_pos h]
      simp only [publishPhase, if_pos h, setPhase]
      cases hb : st.batch <;> simp [hb]
    · rw [if_neg h]
      simp only [publishPhase, if_neg h]

/-- `processPhase` with work left: the per-row updates and context deletions
of the busy branch. -/
lemma processPhase_busy (maxRetries : Nat) (st : DOState)
    (outcome : String → ProcessOutcome) (ctxWrites : List CtxFileRow)
    (metaWrites : List CtxMetaRow)
    (hne : (st.pis.filter pendingPred).isEmpty = false) :
    processPhase maxRetries st outcome ctxWrites metaWrites =
      { st with
        pis := st.pis.map fun p =>
          if pendingPred p then piAfterProcess maxRetries outcome p else p
        contextFiles := (st.contextFiles ++ ctxWrites).filter
          fun r => !(ctxCleared st maxRetries outcome r.pi)
        contextMeta := (st.contextMeta ++ metaWrites).filter
          fun r => !(ctxCleared st maxRetries outcome r.pi)
        alarmSet := true } := by
  unfold processPhase
  rw [hne]
  rfl

/-- C7: when a pending item's generation attempt rejects during a busy
`processPhase` tick, the item returns to `pending` with the incremented retry
count while that count is still below the maximum (so a later tick picks it
up again); at or above the maximum it becomes `error` with the final message
and incremented count, its cached context rows (including ones written this
tick) are gone, it is excluded from both later processing and publishing
selections, and it still appears in the callback payload as an `error`
entry. -/
theorem processPhase_retry_handling (maxRetries : Nat) (st : DOState)
    (outcome : String → ProcessOutcome) (ctxWrites : List CtxFileRow)
    (metaWrites : List CtxMetaRow) (i : Nat) (hi : i < st.pis.length)
    (msg : String) (hpend : pendingPred st.pis[i] = true)
    (herr : outcome (st.pis[i]).pi = .err msg) :
    (processPhase maxRetries st outcome ctxWrites metaWrites).pis.length =
      st.pis.length ∧
    ∀ (hi2 : i <
        (processPhase maxRetries st outcome ctxWrites metaWrites).pis.length),
      ((st.pis[i]).retry_count + 1 < maxRetries →
        (processPhase maxRetries st outcome ctxWrites metaWrites).pis[i] =
          { st.pis[i] with
            status := .pending
            retry_count := (st.pis[i]).retry_count + 1 } ∧
        pendingPred
          ((processPhase maxRetries st outcome ctxWrites metaWrites).pis[i]) =
          true) ∧
      (maxRetries ≤ (st.pis[i]).retry_count + 1 →
        (processPhase maxRetries st outcome ctxWrites metaWrites).pis[i] =
          { st.pis[i] with
            status := .error
            retry_count := (st.pis[i]).retry_count + 1
            error := some msg } ∧
        pendingPred
          ((processPhase maxRetries st outcome ctxWrites metaWrites).pis[i]) =
          false ∧
        toPublishPred
          ((processPhase maxRetries st outcome ctxWrites metaWrites).pis[i]) =
          false ∧
        (∀ r ∈ (processPhase maxRetries st outcome ctxWrites
            metaWrites).contextFiles, r.pi ≠ (st.pis[i]).pi) ∧
        (∀ r ∈ (processPhase maxRetries st outcome ctxWrites
            metaWrites).contextMeta, r.pi ≠ (st.pis[i]).pi) ∧
        (∀ (bb : BatchState) (now : Int),
          ∃ res ∈ (buildCallbackPayload bb
            (processPhase maxRetries st outcome ctxWrites metaWrites).pis
            now).results,
            res.pi = (st.pis[i]).pi ∧ res.status = "error")) := by
  have hmem : st.pis[i] ∈ st.pis.filter pendingPred :=
    List.mem_filter.mpr ⟨List.getElem_mem hi, hpend⟩
  have hne : (st.pis.filter pendingPred).isEmpty = false := by
    rw [List.isEmpty_eq_false]
    exact List.ne_nil_of_mem hmem
  rw [processPhase_busy maxRetries st outcome ctxWrites metaWrites hne]
  have hi3 : i < (st.pis.map fun p =>
      if pendingPred p then piAfterProcess maxRetries outcome p
      else p).length := by
    rw [List.length_map]
    exact hi
  have hget : (st.pis.map fun p =>
      if pendingPred p then piAfterProcess maxRetries outcome p else p)[i] =
      piAfterProcess maxRetries outcome st.pis[i] := by
    rw [List.getElem_map, if_pos hpend]
  refine ⟨by rw [List.length_map], ?_⟩
  intro hi2
  constructor
  · intro hlt
    have hrec : piAfterProcess maxRetries outcome st.pis[i] =
        { st.pis[i] with
          status := .pending
          retry_count := (st.pis[i]).retry_count + 1 } := by
      unfold piAfterProcess
      simp only [herr]
      rw [if_neg (by omega)]
    rw [hget, hrec]
    exact ⟨rfl, rfl⟩
  · intro hge
    have hrec : piAfterProcess maxRetries outcome st.pis[i] =
        { st.pis[i] with
          status := .error
          retry_count := (st.pis[i]).retry_count + 1
          error := some msg } := by
      unfold piAfterProcess
      simp only [herr]
      rw [if_pos hge]
    have hclear : ctxCleared st maxRetries outcome (st.pis[i]).pi = true := by
      unfold ctxCleared
      rw [List.any_eq_true]
      refine ⟨st.pis[i], List.getElem_mem hi, ?_⟩
      simp only [hpend, clearCtxAfterProcess, herr, beq_self_eq_true,
        Bool.true_and, Bool.and_true]
      exact decide_eq_true hge
    rw [hget, hrec]
    refine ⟨rfl, rfl, rfl, ?_, ?_, ?_⟩
    · intro r hr hcon
      have := (List.mem_filter.mp hr).2
      rw [hcon, hclear] at this
      simp at this
    · intro r hr hcon
      have := (List.mem_filter.mp hr).2
      rw [hcon, hclear] at this
      simp at this
    · intro bb now
      refine ⟨_, List.mem_map.mpr ⟨_, List.getElem_mem hi3, rfl⟩, ?_, ?_⟩
      · show ((st.pis.map fun p =>
          if pendingPred p then piAfterProcess maxRetries outcome p
          else p)[i]).pi = (st.pis[i]).pi
        rw [hget, hrec]
      · show (if succeededPred ((st.pis.map fun p =>
            if pendingPred p then piAfterProcess maxRetries outcome p
            else p)[i]) then "success" else "error") = "error"
        rw [hget, hrec]
        rfl

/-- C7 witness: with `maxRetries = 3` and an item at retry count 2, a failed
generation drives it to `error` with the final message, drops its context
rows, excludes it from both phase selections and keeps it in the callback
results as an error entry. -/
theorem processPhase_retry_handling_witness :
    (processPhase 3 retrySt procOutEx [] []).pis.length = 1 ∧
    ∀ (hi2 : 0 < (processPhase 3 retrySt procOutEx [] []).pis.length),
      (2 + 1 < 3 →
        (processPhase 3 retrySt procOutEx [] []).pis[0] =
          { pi := "p1"
            status := .pending
            retry_count := 3
            description := none
            description_cid := none
            new_tip := none
            new_version := none
            error := none } ∧
        pendingPred ((processPhase 3 retrySt procOutEx [] []).pis[0]) =
          true) ∧
      (3 ≤ 2 + 1 →
        (processPhase 3 retrySt procOutEx [] []).pis[0] =
          { pi := "p1"
            status := .error
            retry_count := 3
            description := none
            description_cid := none
            new_tip := none
            new_version := none
            error := some "LLM failed" } ∧
        pendingPred ((processPhase 3 retrySt procOutEx [] []).pis[0]) =
          false ∧
        toPublishPred ((processPhase 3 retrySt procOutEx [] []).pis[0]) =
          false ∧
        (∀ r ∈ (processPhase 3 retrySt procOutEx [] []).contextFiles,
          r.pi ≠ "p1") ∧
        (∀ r ∈ (processPhase 3 retrySt procOutEx [] []).contextMeta,
          r.pi ≠ "p1") ∧
        (∀ (bb : BatchState) (now : Int),
          ∃ res ∈ (buildCallbackPayload bb
            (processPhase 3 retrySt procOutEx [] []).pis now).results,
            res.pi = "p1" ∧ res.status = "error")) :=
  processPhase_retry_handling 3 retrySt procOutEx [] [] 0 (by decide)
    "LLM failed" rfl rfl

end Arke
